import Mathlib

/-
Verification of the master-side online secondary-index backfill controller
(yb/master/backfill_index.cc) and the companion block-layer middle-key test.

The stateful C++ code is shallowly embedded as pure Lean functions over
explicit record states.  Callback-driven completions (GetSafeTime responses,
BackfillChunk responses) are modelled as sequential processing of a response
list, which realises one interleaving of the concurrent execution; counters
and atomics become plain record fields.  Persistence (sys-catalog UpdateItem
or UpdateItems) is modelled as a Boolean success parameter: on success the
"disk" copy of the record is replaced and the mutation is committed, on
failure the in-memory committed state is left unchanged, exactly as the
RETURN_NOT_OK early returns in the source leave the write lock uncommitted.
-/

namespace YB

/-! ## Index permission state machine -/

inductive IndexPermissions where
  | DELETE_ONLY
  | WRITE_AND_DELETE
  | DO_BACKFILL
  | READ_WRITE_AND_DELETE
  | WRITE_AND_DELETE_WHILE_REMOVING
  | DELETE_ONLY_WHILE_REMOVING
  | INDEX_UNUSED
  | NOT_USED
deriving DecidableEq, Repr

/-- Embeds `NextPermission` (backfill_index.cc).  The `CHECK(false)` branches
(states from which the function must never be called) are modelled as `none`:
reaching them aborts the process. -/
def NextPermission : IndexPermissions → Option IndexPermissions
  | .DELETE_ONLY => some .WRITE_AND_DELETE
  | .WRITE_AND_DELETE => some .DO_BACKFILL
  | .DO_BACKFILL => none
  | .READ_WRITE_AND_DELETE => none
  | .WRITE_AND_DELETE_WHILE_REMOVING => some .DELETE_ONLY_WHILE_REMOVING
  | .DELETE_ONLY_WHILE_REMOVING => some .INDEX_UNUSED
  | .INDEX_UNUSED => none
  | .NOT_USED => none

/-- Embeds `IsTransientState` (backfill_index.cc). -/
def IsTransientState (perm : IndexPermissions) : Bool :=
  perm ≠ .READ_WRITE_AND_DELETE && perm ≠ .NOT_USED

/-! ## Monitored task states -/

inductive MonitoredTaskState where
  | kWaiting
  | kRunning
  | kComplete
  | kFailed
  | kAborted
deriving DecidableEq, Repr

/-! ## BackfillTable construction and launch (claim C3)

The constructor `BackfillTable::BackfillTable` reads the base table's
persisted `schema.table_properties.backfilling_timestamp`.  Hybrid times are
modelled as `Nat`; the INVALID hybrid time (`HybridTime::kInvalid`, to which
`read_time_for_backfill_` is set on the else branch) is modelled as `none`.
The check `read_time_for_backfill_.FromUint64(v).ok()` is kept parametric in
a validity predicate `fromUint64Ok`, since `HybridTime::FromUint64` lives
outside the provided sources. -/

structure BackfillTableCtorState where
  read_time_for_backfill : Option Nat
  timestamp_chosen : Bool
  done : Bool
deriving DecidableEq, Repr

/-- Embeds the tail of `BackfillTable::BackfillTable`: adopt a persisted
`backfilling_timestamp` verbatim when present and parseable, else leave the
read time INVALID with `timestamp_chosen = false`. -/
def mkBackfillTable (backfilling_timestamp : Option Nat)
    (fromUint64Ok : Nat → Bool) : BackfillTableCtorState :=
  match backfilling_timestamp with
  | some v =>
    if fromUint64Ok v then
      { read_time_for_backfill := some v, timestamp_chosen := true, done := false }
    else
      { read_time_for_backfill := none, timestamp_chosen := false, done := false }
  | none =>
    { read_time_for_backfill := none, timestamp_chosen := false, done := false }

inductive LaunchedTask where
  | getSafeTimeForTablet (tablet_id : Nat)
  | backfillTablet (tablet_id : Nat)
deriving DecidableEq, Repr

/-- Embeds `BackfillTable::Launch` together with the per-tablet fan-outs of
`LaunchComputeSafeTimeForRead` and `LaunchBackfill`: which task is created
for each tablet of the base table. -/
def backfillTableLaunch (bt : BackfillTableCtorState) (tablets : List Nat) :
    List LaunchedTask :=
  if bt.timestamp_chosen = false then
    tablets.map LaunchedTask.getSafeTimeForTablet
  else
    tablets.map LaunchedTask.backfillTablet

/-! ## RPC response handling (claim C8) -/

inductive TabletServerErrorCode where
  | TABLET_NOT_FOUND
  | MISMATCHED_SCHEMA
  | TABLET_HAS_A_NEWER_SCHEMA
  | OPERATION_NOT_SUPPORTED
  | otherError (code : Nat)
deriving DecidableEq, Repr

/-- The four shard error codes on which the response handlers fail the task
with no further retry. -/
def isFatalTabletServerError : TabletServerErrorCode → Bool
  | .TABLET_NOT_FOUND => true
  | .MISMATCHED_SCHEMA => true
  | .TABLET_HAS_A_NEWER_SCHEMA => true
  | .OPERATION_NOT_SUPPORTED => true
  | .otherError _ => false

/-- Embeds `GetSafeTimeForTablet::HandleResponse`: the resulting monitored
task state when the handler runs on a task in the kRunning state.  `none`
is a response without error; `some code` is a response carrying a tablet
server error.  On a non-fatal error the task is left running, eligible for
the retry engine. -/
def getSafeTimeHandleResponse (resp : Option TabletServerErrorCode) :
    MonitoredTaskState :=
  match resp with
  | some code =>
    match code with
    | .TABLET_NOT_FOUND => .kFailed
    | .MISMATCHED_SCHEMA => .kFailed
    | .TABLET_HAS_A_NEWER_SCHEMA => .kFailed
    | .OPERATION_NOT_SUPPORTED => .kFailed
    | .otherError _ => .kRunning
  | none => .kComplete

/-- Embeds `BackfillChunk::HandleResponse` (same switch as the GetSafeTime
handler). -/
def backfillChunkHandleResponse (resp : Option TabletServerErrorCode) :
    MonitoredTaskState :=
  match resp with
  | some code =>
    match code with
    | .TABLET_NOT_FOUND => .kFailed
    | .MISMATCHED_SCHEMA => .kFailed
    | .TABLET_HAS_A_NEWER_SCHEMA => .kFailed
    | .OPERATION_NOT_SUPPORTED => .kFailed
    | .otherError _ => .kRunning
  | none => .kComplete

/-- DEFINE_int32(index_backfill_rpc_timeout_ms, 1 * 60 * 1000). -/
def FLAGS_index_backfill_rpc_timeout_ms : Nat := 60000

/-- DEFINE_int32(index_backfill_rpc_max_retries, 150). -/
def FLAGS_index_backfill_rpc_max_retries : Nat := 150

/-- DEFINE_int32(index_backfill_rpc_max_delay_ms, 10 * 60 * 1000). -/
def FLAGS_index_backfill_rpc_max_delay_ms : Nat := 600000

/-- DEFINE_int32(index_backfill_wait_for_alter_table_completion_ms, 100). -/
def FLAGS_index_backfill_wait_for_alter_table_completion_ms : Nat := 100

/-- Embeds `BackfillChunk::num_max_retries`. -/
def backfillChunkNumMaxRetries : Nat := FLAGS_index_backfill_rpc_max_retries

/-- Embeds `BackfillChunk::max_delay_ms`. -/
def backfillChunkMaxDelayMs : Nat := FLAGS_index_backfill_rpc_max_delay_ms

/-! ## Block middle key (claim C9) -/

inductive BlockStatus where
  | Incomplete
deriving DecidableEq, Repr

/-- Modelled from the spec: `Block::GetMiddleKey` itself is not among the
provided sources; only its unit test (`BlockTest.GetMiddleKey`) is.  Per the
spec's boundary-behaviour section and the expectations of that shipped test,
asking for the middle key of a zero-entry block fails with Incomplete, and
for a block of `num_keys` entries built with restart interval 1 the middle
key is the entry at 1-based index `num_keys / 2 + 1` (the restart point at
0-based index `num_keys / 2`), which reproduces the test's expected values
1, 2, 2, 8, 9 for 1, 2, 3, 15, 16 keys. -/
def getMiddleKeyIndex (num_keys : Nat) : Except BlockStatus Nat :=
  if num_keys = 0 then .error .Incomplete else .ok (num_keys / 2 + 1)

/-- The 1-based index named by the claim's formula: the ceiling of n / 2. -/
def claimedMiddleKeyIndex (num_keys : Nat) : Nat := (num_keys + 1) / 2

/-! ## Safe-time election (claims C2 and C5)

`BackfillTable::UpdateSafeTime` is invoked once per GetSafeTime task.  The
concurrent completions are modelled as sequential processing of a list of
responses: `none` is a failed task, `some ht` a task reporting hybrid time
`ht`.  The atomics `timestamp_chosen_`, `tablets_pending_`, `done_` become
record fields; the sys-catalog persist of `backfilling_timestamp` and the
`LaunchBackfill` call are recorded in the state (the persist is taken to
succeed, the leader being stable in this model).  `AlterTableStateToAbort`
is summarised here by the permission it drives the index to; its full
catalog effect is embedded separately below. -/

/-- Modelled from the spec: `HybridTime::MakeAtLeast` (yb/common/hybrid_time.h
is not among the provided sources).  The spec's reduction is
read_timestamp := max(read_timestamp, ht), with the INVALID initial value
(`none`) acting as the absent element. -/
def makeAtLeast : Option Nat → Nat → Option Nat
  | none, ht => some ht
  | some t, ht => some (max t ht)

structure SafeTimeState where
  read_time_for_backfill : Option Nat
  timestamp_chosen : Bool
  tablets_pending : Nat
  persisted_backfilling_timestamp : Option Nat
  persist_count : Nat
  launch_backfill_count : Nat
  abort_count : Nat
  aborted_to : Option IndexPermissions
deriving DecidableEq, Repr

/-- The state of a freshly constructed BackfillTable that has just run
`LaunchComputeSafeTimeForRead` over `num_tablets` tablets: read time INVALID,
timestamp not chosen, `tablets_pending_ = num_tablets`. -/
def initSafeTimeState (num_tablets : Nat) : SafeTimeState :=
  { read_time_for_backfill := none
    timestamp_chosen := false
    tablets_pending := num_tablets
    persisted_backfilling_timestamp := none
    persist_count := 0
    launch_backfill_count := 0
    abort_count := 0
    aborted_to := none }

/-- Embeds `BackfillTable::UpdateSafeTime`.  On failure, the first caller to
flip `timestamp_chosen_` (the `exchange(true)` that returns false) runs
`AlterTableStateToAbort`, which drives the index permission to
WRITE_AND_DELETE_WHILE_REMOVING; later callers drop the result.  On success,
`read_time_for_backfill_.MakeAtLeast(ht)` runs under the mutex; then, by the
short-circuit `!timestamp_chosen() && --tablets_pending_ == 0`, the pending
counter is decremented only while the timestamp is not yet chosen, and on
reaching zero the elected time is persisted as `backfilling_timestamp`,
`timestamp_chosen_` is set, and `LaunchBackfill` runs. -/
def updateSafeTime (st : SafeTimeState) (resp : Option Nat) : SafeTimeState :=
  match resp with
  | none =>
    if st.timestamp_chosen then st
    else
      { st with
        timestamp_chosen := true
        abort_count := st.abort_count + 1
        aborted_to := some .WRITE_AND_DELETE_WHILE_REMOVING }
  | some ht =>
    let rt := makeAtLeast st.read_time_for_backfill ht
    if st.timestamp_chosen then { st with read_time_for_backfill := rt }
    else
      let pending := st.tablets_pending - 1
      if pending = 0 then
        { st with
          read_time_for_backfill := rt
          tablets_pending := pending
          persisted_backfilling_timestamp := rt
          persist_count := st.persist_count + 1
          timestamp_chosen := true
          launch_backfill_count := st.launch_backfill_count + 1 }
      else
        { st with read_time_for_backfill := rt, tablets_pending := pending }

/-- Sequential processing of a list of GetSafeTime completions. -/
def runSafeTime (st : SafeTimeState) (resps : List (Option Nat)) : SafeTimeState :=
  resps.foldl updateSafeTime st

lemma runSafeTime_nil (st : SafeTimeState) : runSafeTime st [] = st := rfl

lemma runSafeTime_cons (st : SafeTimeState) (r : Option Nat) (rs : List (Option Nat)) :
    runSafeTime st (r :: rs) = runSafeTime (updateSafeTime st r) rs := rfl

lemma runSafeTime_append (st : SafeTimeState) (l₁ l₂ : List (Option Nat)) :
    runSafeTime st (l₁ ++ l₂) = runSafeTime (runSafeTime st l₁) l₂ :=
  List.foldl_append ..

/-- Successful completions that do not bring the pending counter to zero
never persist, never launch, and never flip `timestamp_chosen`. -/
lemma runSafeTime_success_no_trigger (l : List Nat) :
    ∀ st : SafeTimeState, st.timestamp_chosen = false →
      l.length < st.tablets_pending →
      runSafeTime st (l.map some) =
        { st with
          read_time_for_backfill := l.foldl makeAtLeast st.read_time_for_backfill
          tablets_pending := st.tablets_pending - l.length } := by
  induction l with
  | nil =>
    intro st _ _
    simp [runSafeTime]
  | cons h t ih =>
    intro st hchosen hlt
    have hne : ¬ (st.tablets_pending - 1 = 0) := by
      simp only [List.length_cons] at hlt
      omega
    rw [List.map_cons, runSafeTime_cons]
    rw [show updateSafeTime st (some h) =
        { st with
          read_time_for_backfill := makeAtLeast st.read_time_for_backfill h
          tablets_pending := st.tablets_pending - 1 } by
      simp [updateSafeTime, hchosen, hne]]
    rw [ih _ (by simp [hchosen]) (by simp only [List.length_cons] at hlt; simp; omega)]
    simp only [List.foldl_cons, List.length_cons]
    congr 1
    omega

/-- When every task succeeds and the pending counter starts at the number of
responses, the final successful response triggers exactly one persist of the
folded maximum, flips `timestamp_chosen` and launches the backfill. -/
lemma runSafeTime_all_success (l : List Nat) :
    ∀ st : SafeTimeState, st.timestamp_chosen = false →
      st.tablets_pending = l.length → l ≠ [] →
      runSafeTime st (l.map some) =
        { st with
          read_time_for_backfill := l.foldl makeAtLeast st.read_time_for_backfill
          tablets_pending := 0
          timestamp_chosen := true
          persisted_backfilling_timestamp :=
            l.foldl makeAtLeast st.read_time_for_backfill
          persist_count := st.persist_count + 1
          launch_backfill_count := st.launch_backfill_count + 1 } := by
  induction l with
  | nil => intro st _ _ hne; exact absurd rfl hne
  | cons h t ih =>
    intro st hchosen hp _
    match t, ih with
    | [], _ =>
      rw [List.map_cons, List.map_nil, runSafeTime_cons, runSafeTime_nil]
      simp only [List.length_cons, List.length_nil, Nat.zero_add] at hp
      simp [updateSafeTime, hchosen, hp]
    | t1 :: t2, ih =>
      have hne : ¬ (st.tablets_pending - 1 = 0) := by
        simp only [List.length_cons] at hp
        omega
      rw [List.map_cons, runSafeTime_cons]
      rw [show updateSafeTime st (some h) =
          { st with
            read_time_for_backfill := makeAtLeast st.read_time_for_backfill h
            tablets_pending := st.tablets_pending - 1 } by
        simp [updateSafeTime, hchosen, hne]]
      rw [ih _ (by simp [hchosen])
        (by simp only [List.length_cons] at hp ⊢; simp; omega)
        (by simp)]
      simp

/-- After the timestamp has been chosen, later completions change only the
in-memory read time: nothing further is persisted, launched, or aborted. -/
lemma runSafeTime_chosen_frozen (l : List (Option Nat)) :
    ∀ st : SafeTimeState, st.timestamp_chosen = true →
      (runSafeTime st l).timestamp_chosen = true ∧
      (runSafeTime st l).tablets_pending = st.tablets_pending ∧
      (runSafeTime st l).persisted_backfilling_timestamp =
        st.persisted_backfilling_timestamp ∧
      (runSafeTime st l).persist_count = st.persist_count ∧
      (runSafeTime st l).launch_backfill_count = st.launch_backfill_count ∧
      (runSafeTime st l).abort_count = st.abort_count ∧
      (runSafeTime st l).aborted_to = st.aborted_to := by
  induction l with
  | nil => intro st h; simp [runSafeTime, h]
  | cons r rs ih =>
    intro st h
    rw [runSafeTime_cons]
    cases r with
    | none =>
      rw [show updateSafeTime st none = st by simp [updateSafeTime, h]]
      exact ih st h
    | some ht =>
      rw [show updateSafeTime st (some ht) =
          { st with
            read_time_for_backfill := makeAtLeast st.read_time_for_backfill ht } by
        simp [updateSafeTime, h]]
      simpa using
        ih { st with
              read_time_for_backfill := makeAtLeast st.read_time_for_backfill ht }
          (by simp [h])

/-- Folding `makeAtLeast` from a concrete start value is the fold of `max`. -/
lemma foldl_makeAtLeast_some (l : List Nat) :
    ∀ t : Nat, l.foldl makeAtLeast (some t) = some (l.foldl max t) := by
  induction l with
  | nil => intro t; rfl
  | cons h rest ih => intro t; simp [makeAtLeast, ih]

lemma le_foldl_max (l : List Nat) :
    ∀ a : Nat, a ≤ l.foldl max a ∧ ∀ x ∈ l, x ≤ l.foldl max a := by
  induction l with
  | nil => intro a; simp
  | cons h rest ih =>
    intro a
    refine ⟨le_trans (le_max_left a h) (ih (max a h)).1, ?_⟩
    intro x hx
    rcases List.mem_cons.mp hx with rfl | hx
    · exact le_trans (le_max_right a x) (ih (max a x)).1
    · exact (ih (max a h)).2 x hx

lemma foldl_max_mem (l : List Nat) :
    ∀ a : Nat, l.foldl max a = a ∨ l.foldl max a ∈ l := by
  induction l with
  | nil => intro a; left; rfl
  | cons h rest ih =>
    intro a
    rcases ih (max a h) with heq | hmem
    · rcases max_choice a h with hc | hc
      · left; simp [List.foldl_cons]; omega
      · right; rw [List.foldl_cons, heq, hc]; exact List.mem_cons_self ..
    · right; exact List.mem_cons_of_mem _ hmem

/-- For a non-empty report list, the fold of `makeAtLeast` from INVALID is
`some` of a maximum that dominates every report and is one of them. -/
lemma foldl_makeAtLeast_spec (l : List Nat) (hne : l ≠ []) :
    ∃ m, l.foldl makeAtLeast none = some m ∧ (∀ x ∈ l, x ≤ m) ∧ m ∈ l := by
  match l, hne with
  | h :: t, _ =>
    refine ⟨t.foldl max h, ?_, ?_, ?_⟩
    · rw [List.foldl_cons, show makeAtLeast none h = some h from rfl,
        foldl_makeAtLeast_some]
    · intro x hx
      rcases List.mem_cons.mp hx with rfl | hx
      · exact (le_foldl_max t x).1
      · exact (le_foldl_max t h).2 x hx
    · rcases foldl_max_mem t h with heq | hmem
      · rw [heq]; exact List.mem_cons_self ..
      · exact List.mem_cons_of_mem _ hmem

/-- C2: for every BackfillJob whose GetSafeTime tasks all succeed, the
persisted `backfilling_timestamp` is the pointwise maximum of the reported
hybrid times (folded with MakeAtLeast from the INVALID initial read time);
the persist, the flip of `timestamp_chosen` and the single `LaunchBackfill`
call happen exactly once, on the response that brings the pending counter
to zero while `timestamp_chosen` is still false, and no backfill chunk work
is launched before that final response. -/
theorem claim_C2 (hts : List Nat) (hne : hts ≠ []) :
    runSafeTime (initSafeTimeState hts.length) (hts.map some) =
      { read_time_for_backfill := hts.foldl makeAtLeast none
        timestamp_chosen := true
        tablets_pending := 0
        persisted_backfilling_timestamp := hts.foldl makeAtLeast none
        persist_count := 1
        launch_backfill_count := 1
        abort_count := 0
        aborted_to := none } ∧
    (∃ m, hts.foldl makeAtLeast none = some m ∧ (∀ x ∈ hts, x ≤ m) ∧ m ∈ hts) ∧
    (∀ k, k < hts.length →
      (runSafeTime (initSafeTimeState hts.length)
        ((hts.take k).map some)).persist_count = 0 ∧
      (runSafeTime (initSafeTimeState hts.length)
        ((hts.take k).map some)).launch_backfill_count = 0 ∧
      (runSafeTime (initSafeTimeState hts.length)
        ((hts.take k).map some)).timestamp_chosen = false) := by
  refine ⟨?_, foldl_makeAtLeast_spec hts hne, ?_⟩
  · simpa [initSafeTimeState] using
      runSafeTime_all_success hts (initSafeTimeState hts.length) rfl rfl hne
  · intro k hk
    have hlen : (hts.take k).length = k := by
      simp [List.length_take]
      omega
    have h := runSafeTime_success_no_trigger (hts.take k)
      (initSafeTimeState hts.length) rfl
      (by rw [hlen]; exact hk)
    rw [h]
    exact ⟨rfl, rfl, rfl⟩

/-- Witness for C2: three shards reporting 100, 120, 115 elect 120. -/
theorem claim_C2_witness :
    ([100, 120, 115] : List Nat) ≠ [] ∧
    runSafeTime (initSafeTimeState 3) ([100, 120, 115].map some) =
      { read_time_for_backfill := some 120
        timestamp_chosen := true
        tablets_pending := 0
        persisted_backfilling_timestamp := some 120
        persist_count := 1
        launch_backfill_count := 1
        abort_count := 0
        aborted_to := none } := by
  refine ⟨by decide, ?_⟩
  have h := (claim_C2 [100, 120, 115] (by decide)).1
  have hf : ([100, 120, 115] : List Nat).foldl makeAtLeast none = some 120 := by
    decide
  rw [hf] at h
  exact h

/-- C3: a BackfillTable constructed over a base table whose persisted
properties carry a parseable `backfilling_timestamp` adopts it verbatim with
`timestamp_chosen = true`, and its Launch goes straight to per-tablet
backfill without creating any GetSafeTime task; without such a property the
read time stays INVALID with `timestamp_chosen = false`, and Launch fans out
GetSafeTime tasks. -/
theorem claim_C3 (v : Nat) (fromUint64Ok : Nat → Bool) (tablets : List Nat) :
    mkBackfillTable (some v) fromUint64Ok =
      (if fromUint64Ok v then
        { read_time_for_backfill := some v, timestamp_chosen := true, done := false }
      else
        { read_time_for_backfill := none, timestamp_chosen := false, done := false }) ∧
    mkBackfillTable none fromUint64Ok =
      { read_time_for_backfill := none, timestamp_chosen := false, done := false } ∧
    backfillTableLaunch
      { read_time_for_backfill := some v, timestamp_chosen := true, done := false }
      tablets = tablets.map LaunchedTask.backfillTablet ∧
    backfillTableLaunch
      { read_time_for_backfill := none, timestamp_chosen := false, done := false }
      tablets = tablets.map LaunchedTask.getSafeTimeForTablet ∧
    (∀ t : Nat,
      LaunchedTask.getSafeTimeForTablet t ∉ tablets.map LaunchedTask.backfillTablet) := by
  refine ⟨rfl, rfl, rfl, rfl, ?_⟩
  intro t
  simp [List.mem_map]

/-- C5: with the pending counter initialised to the number of responses, a
run whose responses are some successes, then a failure, then anything: the
failure is the first event to flip `timestamp_chosen` (it was still false
after the preceding successes); it aborts exactly once, driving the index
permission to WRITE_AND_DELETE_WHILE_REMOVING; every later result is
dropped; `backfilling_timestamp` is never persisted and `LaunchBackfill`
never runs. -/
theorem claim_C5 (pre : List Nat) (post : List (Option Nat)) :
    (runSafeTime (initSafeTimeState (pre.length + 1 + post.length))
      (pre.map some)).timestamp_chosen = false ∧
    (runSafeTime (initSafeTimeState (pre.length + 1 + post.length))
      (pre.map some ++ [none])).abort_count = 1 ∧
    (runSafeTime (initSafeTimeState (pre.length + 1 + post.length))
      (pre.map some ++ [none])).aborted_to =
        some IndexPermissions.WRITE_AND_DELETE_WHILE_REMOVING ∧
    (runSafeTime (initSafeTimeState (pre.length + 1 + post.length))
      (pre.map some ++ none :: post)).abort_count = 1 ∧
    (runSafeTime (initSafeTimeState (pre.length + 1 + post.length))
      (pre.map some ++ none :: post)).aborted_to =
        some IndexPermissions.WRITE_AND_DELETE_WHILE_REMOVING ∧
    (runSafeTime (initSafeTimeState (pre.length + 1 + post.length))
      (pre.map some ++ none :: post)).persist_count = 0 ∧
    (runSafeTime (initSafeTimeState (pre.length + 1 + post.length))
      (pre.map some ++ none :: post)).launch_backfill_count = 0 ∧
    (runSafeTime (initSafeTimeState (pre.length + 1 + post.length))
      (pre.map some ++ none :: post)).persisted_backfilling_timestamp = none ∧
    (runSafeTime (initSafeTimeState (pre.length + 1 + post.length))
      (pre.map some ++ none :: post)).timestamp_chosen = true := by
  have h1 := runSafeTime_success_no_trigger pre
    (initSafeTimeState (pre.length + 1 + post.length)) rfl
    (by simp [initSafeTimeState]; omega)
  have h2 : runSafeTime (initSafeTimeState (pre.length + 1 + post.length))
      (pre.map some ++ [none]) =
      { read_time_for_backfill := pre.foldl makeAtLeast none
        timestamp_chosen := true
        tablets_pending := pre.length + 1 + post.length - pre.length
        persisted_backfilling_timestamp := none
        persist_count := 0
        launch_backfill_count := 0
        abort_count := 1
        aborted_to := some IndexPermissions.WRITE_AND_DELETE_WHILE_REMOVING } := by
    rw [runSafeTime_append, h1]
    simp [runSafeTime, updateSafeTime, initSafeTimeState]
  have hsplit : (pre.map some ++ none :: post) =
      (pre.map some ++ [none]) ++ post := by simp
  obtain ⟨f1, f2, f3, f4, f5, f6, f7⟩ :=
    runSafeTime_chosen_frozen post
      (runSafeTime (initSafeTimeState (pre.length + 1 + post.length))
        (pre.map some ++ [none]))
      (by rw [h2])
  have hfin : runSafeTime (initSafeTimeState (pre.length + 1 + post.length))
      (pre.map some ++ none :: post) =
      runSafeTime (runSafeTime (initSafeTimeState (pre.length + 1 + post.length))
        (pre.map some ++ [none])) post := by
    rw [hsplit, runSafeTime_append]
  refine ⟨by rw [h1]; rfl, by rw [h2], by rw [h2], ?_, ?_, ?_, ?_, ?_, ?_⟩
  · rw [hfin, f6, h2]
  · rw [hfin, f7, h2]
  · rw [hfin, f4, h2]
  · rw [hfin, f5, h2]
  · rw [hfin, f3, h2]
  · rw [hfin, f1]

/-- C8: for GetSafeTime and BackfillChunk responses alike, the task is
failed with no further retry exactly on the four fatal shard error codes;
any other error leaves the task running and eligible for retry, success
completes it, and the BackfillChunk retry ceilings come from the flags
(150 retries, 10-minute maximum backoff). -/
theorem claim_C8 (resp : Option TabletServerErrorCode) :
    (getSafeTimeHandleResponse resp = .kFailed ↔
      ∃ c, resp = some c ∧ isFatalTabletServerError c = true) ∧
    (backfillChunkHandleResponse resp = .kFailed ↔
      ∃ c, resp = some c ∧ isFatalTabletServerError c = true) ∧
    (∀ n : Nat,
      getSafeTimeHandleResponse (some (.otherError n)) = .kRunning ∧
      backfillChunkHandleResponse (some (.otherError n)) = .kRunning) ∧
    getSafeTimeHandleResponse none = .kComplete ∧
    backfillChunkHandleResponse none = .kComplete ∧
    backfillChunkNumMaxRetries = 150 ∧
    backfillChunkMaxDelayMs = 600000 := by
  refine ⟨?_, ?_, fun n => ⟨rfl, rfl⟩, rfl, rfl, rfl, rfl⟩ <;>
    rcases resp with _ | c
  · simp [getSafeTimeHandleResponse]
  · cases c <;> simp [getSafeTimeHandleResponse, isFatalTabletServerError]
  · simp [backfillChunkHandleResponse]
  · cases c <;> simp [backfillChunkHandleResponse, isFatalTabletServerError]

/-- C9 counterexample: the claim names the formula "entry at 1-based index
the ceiling of n over 2", but the block layer (per its shipped test) returns
the entry at index 2 for a 2-entry block while the ceiling of 2 over 2 is 1,
and index 9 for 16 entries while the ceiling of 16 over 2 is 8. -/
theorem claim_C9_counterexample :
    getMiddleKeyIndex 2 ≠ .ok (claimedMiddleKeyIndex 2) ∧
    getMiddleKeyIndex 2 = .ok 2 ∧ claimedMiddleKeyIndex 2 = 1 ∧
    getMiddleKeyIndex 16 ≠ .ok (claimedMiddleKeyIndex 16) ∧
    getMiddleKeyIndex 16 = .ok 9 ∧ claimedMiddleKeyIndex 16 = 8 := by
  refine ⟨?_, rfl, rfl, ?_, rfl, rfl⟩ <;>
    simp [getMiddleKeyIndex, claimedMiddleKeyIndex]

/-- C9 amended: the middle key of a zero-entry block fails with Incomplete,
and for n entries under restart interval 1 the middle key is the entry at
1-based index n / 2 + 1 (floor division), which yields 1, 2, 2, 8, 9 for
n = 1, 2, 3, 15, 16 as the shipped test expects. -/
theorem claim_C9_amended :
    getMiddleKeyIndex 0 = .error .Incomplete ∧
    (∀ n : Nat, getMiddleKeyIndex (n + 1) = .ok ((n + 1) / 2 + 1)) ∧
    getMiddleKeyIndex 1 = .ok 1 ∧
    getMiddleKeyIndex 2 = .ok 2 ∧
    getMiddleKeyIndex 3 = .ok 2 ∧
    getMiddleKeyIndex 15 = .ok 8 ∧
    getMiddleKeyIndex 16 = .ok 9 := by
  refine ⟨rfl, fun n => ?_, rfl, rfl, rfl, rfl, rfl⟩
  simp [getMiddleKeyIndex]

/-! ## Catalog rows and the alter-table driver (claims C1, C4, C6, C7, C10)

The persisted protobuf records are embedded as Lean structures.  Row keys
and table ids are `Nat`; key bytes are `List Nat` with `[]` for the empty
string.  The `backfilled_until` protobuf map of a tablet is an association
list; `mapInsert` has the no-overwrite semantics of `Map::insert`, and
`mapErase` removes a key. -/

/-- Insert with the semantics of protobuf `Map::insert` (and `std::map`):
when the key is already present the map is unchanged. -/
def mapInsert (m : List (Nat × List Nat)) (k : Nat) (v : List Nat) :
    List (Nat × List Nat) :=
  if m.any (fun kv => kv.1 == k) then m else m ++ [(k, v)]

/-- Erase a key from the map. -/
def mapErase (m : List (Nat × List Nat)) (k : Nat) : List (Nat × List Nat) :=
  m.filter (fun kv => kv.1 != k)

/-- Look a key up in the map. -/
def mapFind (m : List (Nat × List Nat)) (k : Nat) : Option (List Nat) :=
  (m.find? (fun kv => kv.1 == k)).map (fun kv => kv.2)

lemma mapFind_mapErase (m : List (Nat × List Nat)) (k : Nat) :
    mapFind (mapErase m k) k = none := by
  induction m with
  | nil => rfl
  | cons kv rest ih =>
    by_cases h : kv.1 = k
    · simp only [mapErase, List.filter_cons, h] at ih ⊢
      simp only [bne_self_eq_false]
      exact ih
    · have hstep : mapErase (kv :: rest) k = kv :: mapErase rest k := by
        simp [mapErase, List.filter_cons, h]
      have hbeq : (kv.1 == k) = false := by simp [h]
      rw [hstep]
      simp only [mapFind, List.find?_cons, hbeq] at ih ⊢
      exact ih

inductive SysTableState where
  | RUNNING
  | ALTERING
deriving DecidableEq, Repr

structure TableProperties where
  backfilling_timestamp : Option Nat
  is_backfilling : Bool
deriving DecidableEq, Repr

structure SchemaPB where
  cols : Nat
  table_properties : TableProperties
deriving DecidableEq, Repr

structure IndexInfoPB where
  table_id : Nat
  index_permissions : Option IndexPermissions
deriving DecidableEq, Repr

/-- The base-table row (`SysTablesEntryPB`): version, schema, attached
indexes, the optional colocated `index_info`, the `fully_applied` snapshot
fields, and the lifecycle state. -/
structure SysTablesEntryPB where
  version : Nat
  schema : SchemaPB
  indexes : List IndexInfoPB
  index_info : Option Nat
  fully_applied_schema : Option SchemaPB
  fully_applied_schema_version : Option Nat
  fully_applied_indexes : Option (List IndexInfoPB)
  fully_applied_index_info : Option Nat
  state : SysTableState
deriving DecidableEq, Repr

/-- One tablet of the base table: its committed in-memory `backfilled_until`
map and the copy last persisted to the sys catalog. -/
structure TabletCheckpoint where
  committed_backfilled_until : List (Nat × List Nat)
  disk_backfilled_until : List (Nat × List Nat)
deriving DecidableEq, Repr

/-- The catalog state the driver manipulates: the base table's committed
in-memory record, the persisted copy, the in-memory `TableInfo` flag
`is_backfilling_` (SetIsBackfilling / IsBackfilling), the base table's
tablets, the monitored state of the backfill job, and counters observing
how many BackfillTable jobs were launched and how many DeleteIndexInfo
calls were made to the external catalog. -/
structure World where
  pb : SysTablesEntryPB
  disk : SysTablesEntryPB
  is_backfilling : Bool
  tablets : List TabletCheckpoint
  job_state : MonitoredTaskState
  jobs_launched : Nat
  delete_index_info_calls : Nat
deriving DecidableEq, Repr

inductive Status where
  | ok
  | alreadyPresent
  | ioError
  | checkFailed
deriving DecidableEq, Repr

/-- Embeds `MultiStageAlterTable::ClearAlteringState`: under the write lock,
fail AlreadyPresent when the version moved; otherwise clear the four
`fully_applied` fields, set the state to RUNNING, persist and commit. -/
def clearAlteringState (expected_version : Nat) (w : World)
    (persist_ok : Bool) : Status × World :=
  if expected_version ≠ w.pb.version then (.alreadyPresent, w)
  else
    let pb1 := { w.pb with
      fully_applied_schema := none
      fully_applied_schema_version := none
      fully_applied_indexes := none
      fully_applied_index_info := none
      state := SysTableState.RUNNING }
    if persist_ok then (.ok, { w with pb := pb1, disk := pb1 })
    else (.ioError, w)

def lookupPerm (mapping : List (Nat × IndexPermissions)) (tid : Nat) :
    Option IndexPermissions :=
  (mapping.find? (fun kv => kv.1 == tid)).map (fun kv => kv.2)

/-- Embeds `MultiStageAlterTable::UpdateIndexPermission`: optional version
guard failing AlreadyPresent; snapshot of the current schema, version,
indexes and (when present) index_info into the `fully_applied` fields;
permission rewrite per the mapping; version bump; state ALTERING; persist
and commit. -/
def updateIndexPermission (mapping : List (Nat × IndexPermissions))
    (current_version : Option Nat) (w : World) (persist_ok : Bool) :
    Status × World :=
  if (match current_version with
      | some v => v != w.pb.version
      | none => false) then (.alreadyPresent, w)
  else
    let pb0 := w.pb
    let pb1 := { pb0 with
      fully_applied_schema := some pb0.schema
      fully_applied_schema_version := some pb0.version
      fully_applied_indexes := some pb0.indexes
      fully_applied_index_info :=
        if pb0.index_info.isSome then pb0.index_info
        else pb0.fully_applied_index_info
      indexes := pb0.indexes.map (fun ix =>
        match lookupPerm mapping ix.table_id with
        | some new_perm => { ix with index_permissions := some new_perm }
        | none => ix)
      version := pb0.version + 1
      state := SysTableState.ALTERING }
    if persist_ok then (.ok, { w with pb := pb1, disk := pb1 })
    else (.ioError, w)

/-- Embeds `MultiStageAlterTable::StartBackfillingData`: fail AlreadyPresent
without side effects when a backfill is already in progress; otherwise take
the same `fully_applied` snapshot as UpdateIndexPermission but with no
version bump, persist, commit, set the `is_backfilling` flag and launch one
BackfillTable job. -/
def startBackfillingData (w : World) (persist_ok : Bool) : Status × World :=
  if w.is_backfilling then (.alreadyPresent, w)
  else
    let pb0 := w.pb
    let pb1 := { pb0 with
      fully_applied_schema := some pb0.schema
      fully_applied_schema_version := some pb0.version
      fully_applied_indexes := some pb0.indexes
      fully_applied_index_info :=
        if pb0.index_info.isSome then pb0.index_info
        else pb0.fully_applied_index_info }
    if persist_ok then
      (.ok, { w with
        pb := pb1
        disk := pb1
        is_backfilling := true
        jobs_launched := w.jobs_launched + 1 })
    else (.ioError, w)

/-- The scan loop of `LaunchNextTableInfoVersionIfNecessary`, carried out
with the same accumulators as the source: indexes without a permission are
skipped; DO_BACKFILL goes to the backfill list; INDEX_UNUSED to the delete
list; any other permission except READ_WRITE_AND_DELETE is emplaced (no
overwrite on a duplicate table id) into the update map with its
NextPermission.  A NextPermission `CHECK(false)` state (NOT_USED) aborts the
scan, modelled as `none`. -/
def classifyIndexesGo (ixs : List IndexInfoPB)
    (to_update : List (Nat × IndexPermissions))
    (to_backfill to_delete : List IndexInfoPB) :
    Option (List (Nat × IndexPermissions) × List IndexInfoPB × List IndexInfoPB) :=
  match ixs with
  | [] => some (to_update, to_backfill, to_delete)
  | ix :: rest =>
    match ix.index_permissions with
    | none => classifyIndexesGo rest to_update to_backfill to_delete
    | some p =>
      if p = .DO_BACKFILL then
        classifyIndexesGo rest to_update (to_backfill ++ [ix]) to_delete
      else if p = .INDEX_UNUSED then
        classifyIndexesGo rest to_update to_backfill (to_delete ++ [ix])
      else if p = .READ_WRITE_AND_DELETE then
        classifyIndexesGo rest to_update to_backfill to_delete
      else
        match NextPermission p with
        | none => none
        | some np =>
          if to_update.any (fun kv => kv.1 == ix.table_id) then
            classifyIndexesGo rest to_update to_backfill to_delete
          else
            classifyIndexesGo rest (to_update ++ [(ix.table_id, np)])
              to_backfill to_delete

def classifyIndexes (ixs : List IndexInfoPB) :
    Option (List (Nat × IndexPermissions) × List IndexInfoPB × List IndexInfoPB) :=
  classifyIndexesGo ixs [] [] []

/-- Which branch of `LaunchNextTableInfoVersionIfNecessary` ran (a ghost
observation of the control flow). -/
inductive AlterAction where
  | versionMismatchNoop
  | advance (mapping : List (Nat × IndexPermissions))
  | deleteThenClear (index_table_id : Nat)
  | backfill (ix : IndexInfoPB)
  | quiesce
  | checkFailure
deriving DecidableEq, Repr

/-- Embeds `MultiStageAlterTable::LaunchNextTableInfoVersionIfNecessary`.
Under the read lock: return OK at once when the version moved on; classify
the attached indexes; then, in priority order: update permissions (result
only warned about, alter-table broadcast on success, return OK); or delete
the first unused index (a call to the external catalog DeleteIndexInfo,
modelled by its counter) and ClearAlteringState; or start backfilling the
first DO_BACKFILL index (result only warned about, return OK); or
ClearAlteringState. -/
def launchNextTableInfoVersionIfNecessary (w : World) (current_version : Nat)
    (persist_ok : Bool) : Status × World × AlterAction :=
  if current_version ≠ w.pb.version then (.ok, w, .versionMismatchNoop)
  else
    match classifyIndexes w.pb.indexes with
    | none => (.checkFailed, w, .checkFailure)
    | some (to_update, to_backfill, to_delete) =>
      match to_update with
      | _ :: _ =>
        let r := updateIndexPermission to_update (some current_version) w persist_ok
        (.ok, r.2, .advance to_update)
      | [] =>
        match to_delete with
        | dix :: _ =>
          let w1 := { w with
            delete_index_info_calls := w.delete_index_info_calls + 1 }
          let r := clearAlteringState current_version w1 persist_ok
          (r.1, r.2, .deleteThenClear dix.table_id)
        | [] =>
          match to_backfill with
          | bix :: _ =>
            let r := startBackfillingData w persist_ok
            (.ok, r.2, .backfill bix)
          | [] =>
            let r := clearAlteringState current_version w persist_ok
            (r.1, r.2, .quiesce)

/-- Whether the branch that ran invokes `ClearAlteringState`. -/
def actionInvokesClearAlteringState : AlterAction → Bool
  | .deleteThenClear _ => true
  | .quiesce => true
  | _ => false

/-- C6: with a backfill already in progress, `StartBackfillingData` fails
AlreadyPresent leaving the persisted and in-memory state untouched
(whatever the persist outcome would have been); otherwise it snapshots the
current schema, version, indexes and index_info into the `fully_applied`
fields exactly as `UpdateIndexPermission` does, but leaves the version
unchanged where the latter bumps it, persists and commits the snapshot,
raises the `is_backfilling` flag and launches exactly one backfill job. -/
theorem claim_C6 (w : World) (mapping : List (Nat × IndexPermissions))
    (persist_ok : Bool) :
    (w.is_backfilling = true →
      startBackfillingData w persist_ok = (.alreadyPresent, w)) ∧
    (w.is_backfilling = false →
      (startBackfillingData w true).1 = .ok ∧
      (startBackfillingData w true).2.pb.version = w.pb.version ∧
      (startBackfillingData w true).2.pb.schema = w.pb.schema ∧
      (startBackfillingData w true).2.pb.indexes = w.pb.indexes ∧
      (startBackfillingData w true).2.pb.state = w.pb.state ∧
      (startBackfillingData w true).2.pb.fully_applied_schema =
        (updateIndexPermission mapping none w true).2.pb.fully_applied_schema ∧
      (startBackfillingData w true).2.pb.fully_applied_schema_version =
        (updateIndexPermission mapping none w true).2.pb.fully_applied_schema_version ∧
      (startBackfillingData w true).2.pb.fully_applied_indexes =
        (updateIndexPermission mapping none w true).2.pb.fully_applied_indexes ∧
      (startBackfillingData w true).2.pb.fully_applied_index_info =
        (updateIndexPermission mapping none w true).2.pb.fully_applied_index_info ∧
      (updateIndexPermission mapping none w true).2.pb.version = w.pb.version + 1 ∧
      (startBackfillingData w true).2.disk = (startBackfillingData w true).2.pb ∧
      (startBackfillingData w true).2.is_backfilling = true ∧
      (startBackfillingData w true).2.jobs_launched = w.jobs_launched + 1 ∧
      (startBackfillingData w true).2.tablets = w.tablets ∧
      (startBackfillingData w true).2.job_state = w.job_state) := by
  constructor
  · intro h
    simp [startBackfillingData, h]
  · intro h
    simp [startBackfillingData, updateIndexPermission, h]

/-- A base-table record used as a concrete input by the witnesses. -/
def examplePB : SysTablesEntryPB :=
  { version := 9
    schema := { cols := 2
                table_properties := { backfilling_timestamp := none
                                      is_backfilling := false } }
    indexes := [{ table_id := 5, index_permissions := some .DO_BACKFILL }]
    index_info := none
    fully_applied_schema := none
    fully_applied_schema_version := none
    fully_applied_indexes := none
    fully_applied_index_info := none
    state := .ALTERING }

/-- A world with a backfill already in progress. -/
def exampleBusyWorld : World :=
  { pb := examplePB
    disk := examplePB
    is_backfilling := true
    tablets := []
    job_state := .kRunning
    jobs_launched := 1
    delete_index_info_calls := 0 }

/-- The same world with no backfill in progress. -/
def exampleFreeWorld : World :=
  { exampleBusyWorld with is_backfilling := false, jobs_launched := 0 }

/-- Witness for C6 at concrete worlds, on both branches. -/
theorem claim_C6_witness :
    startBackfillingData exampleBusyWorld true = (.alreadyPresent, exampleBusyWorld) ∧
    (startBackfillingData exampleFreeWorld true).1 = .ok ∧
    (startBackfillingData exampleFreeWorld true).2.is_backfilling = true ∧
    (startBackfillingData exampleFreeWorld true).2.jobs_launched =
      exampleFreeWorld.jobs_launched + 1 ∧
    (startBackfillingData exampleFreeWorld true).2.pb.version =
      exampleFreeWorld.pb.version := by
  have h1 := (claim_C6 exampleBusyWorld [] true).1 rfl
  obtain ⟨g1, g2, g3, g4, g5, g6, g7, g8, g9, g10, g11, g12, g13, g14, g15⟩ :=
    (claim_C6 exampleFreeWorld [] true).2 rfl
  exact ⟨h1, g1, g12, g13, g2⟩

/-- C7: calling `LaunchNextTableInfoVersionIfNecessary` when the table's
version has already moved past `current_version` returns OK and changes
nothing; and `ClearAlteringState` invoked after the version advanced fails
AlreadyPresent (treated as success by its callers) without erasing the
`fully_applied` snapshot or otherwise touching the table. -/
theorem claim_C7 (w : World) (current_version : Nat) (persist_ok : Bool)
    (h : current_version ≠ w.pb.version) :
    launchNextTableInfoVersionIfNecessary w current_version persist_ok =
      (.ok, w, .versionMismatchNoop) ∧
    clearAlteringState current_version w persist_ok = (.alreadyPresent, w) := by
  constructor
  · simp [launchNextTableInfoVersionIfNecessary, h]
  · simp [clearAlteringState, h]

/-- Witness for C7: the example world is at version 9; calls expecting
version 10 are no-ops. -/
theorem claim_C7_witness :
    launchNextTableInfoVersionIfNecessary exampleBusyWorld 10 true =
      (.ok, exampleBusyWorld, .versionMismatchNoop) ∧
    clearAlteringState 10 exampleBusyWorld true =
      (.alreadyPresent, exampleBusyWorld) :=
  claim_C7 exampleBusyWorld 10 true (by decide)

/-- A characterization following the spec's words for claim C4: the
toAdvance entry an index contributes, namely its table id mapped to
`next()` of its permission, available exactly for the non-terminal
permissions (on which `NextPermission` is `some`). -/
def specAdvanceEntry (ix : IndexInfoPB) : Option (Nat × IndexPermissions) :=
  match ix.index_permissions with
  | none => none
  | some p => (NextPermission p).map (fun np => (ix.table_id, np))

lemma classifyIndexesGo_spec (ixs : List IndexInfoPB) :
    ∀ (a0 : List (Nat × IndexPermissions)) (b0 d0 : List IndexInfoPB)
      (a : List (Nat × IndexPermissions)) (b d : List IndexInfoPB),
      classifyIndexesGo ixs a0 b0 d0 = some (a, b, d) →
      (∀ x ∈ a0, ∀ ix ∈ ixs, x.1 ≠ ix.table_id) →
      (ixs.map IndexInfoPB.table_id).Nodup →
      a = a0 ++ ixs.filterMap specAdvanceEntry ∧
      b = b0 ++ ixs.filter
        (fun ix => ix.index_permissions == some .DO_BACKFILL) ∧
      d = d0 ++ ixs.filter
        (fun ix => ix.index_permissions == some .INDEX_UNUSED) := by
  induction ixs with
  | nil =>
    intro a0 b0 d0 a b d hcl _ _
    simp only [classifyIndexesGo, Option.some.injEq, Prod.mk.injEq] at hcl
    obtain ⟨rfl, rfl, rfl⟩ := hcl
    simp
  | cons ix rest ih =>
    intro a0 b0 d0 a b d hcl hdisj hnd
    have hnd1 : (rest.map IndexInfoPB.table_id).Nodup :=
      (List.nodup_cons.mp (by simpa using hnd)).2
    have hnotin : ix.table_id ∉ rest.map IndexInfoPB.table_id :=
      (List.nodup_cons.mp (by simpa using hnd)).1
    have hdisj1 : ∀ x ∈ a0, ∀ jx ∈ rest, x.1 ≠ jx.table_id := by
      intro x hx jx hjx
      exact hdisj x hx jx (List.mem_cons_of_mem _ hjx)
    cases hperm : ix.index_permissions with
    | none =>
      rw [show classifyIndexesGo (ix :: rest) a0 b0 d0 =
          classifyIndexesGo rest a0 b0 d0 by
        simp [classifyIndexesGo, hperm]] at hcl
      obtain ⟨ha, hb, hd⟩ := ih a0 b0 d0 a b d hcl hdisj1 hnd1
      refine ⟨?_, ?_, ?_⟩ <;>
        simp [ha, hb, hd, List.filterMap_cons, List.filter_cons,
          specAdvanceEntry, hperm]
    | some p =>
      cases p with
      | DO_BACKFILL =>
        rw [show classifyIndexesGo (ix :: rest) a0 b0 d0 =
            classifyIndexesGo rest a0 (b0 ++ [ix]) d0 by
          simp [classifyIndexesGo, hperm]] at hcl
        obtain ⟨ha, hb, hd⟩ := ih a0 (b0 ++ [ix]) d0 a b d hcl hdisj1 hnd1
        refine ⟨?_, ?_, ?_⟩ <;>
          simp [ha, hb, hd, List.filterMap_cons, List.filter_cons,
            specAdvanceEntry, hperm, NextPermission]
      | INDEX_UNUSED =>
        rw [show classifyIndexesGo (ix :: rest) a0 b0 d0 =
            classifyIndexesGo rest a0 b0 (d0 ++ [ix]) by
          simp [classifyIndexesGo, hperm]] at hcl
        obtain ⟨ha, hb, hd⟩ := ih a0 b0 (d0 ++ [ix]) a b d hcl hdisj1 hnd1
        refine ⟨?_, ?_, ?_⟩ <;>
          simp [ha, hb, hd, List.filterMap_cons, List.filter_cons,
            specAdvanceEntry, hperm, NextPermission]
      | READ_WRITE_AND_DELETE =>
        rw [show classifyIndexesGo (ix :: rest) a0 b0 d0 =
            classifyIndexesGo rest a0 b0 d0 by
          simp [classifyIndexesGo, hperm]] at hcl
        obtain ⟨ha, hb, hd⟩ := ih a0 b0 d0 a b d hcl hdisj1 hnd1
        refine ⟨?_, ?_, ?_⟩ <;>
          simp [ha, hb, hd, List.filterMap_cons, List.filter_cons,
            specAdvanceEntry, hperm, NextPermission]
      | NOT_USED =>
        rw [show classifyIndexesGo (ix :: rest) a0 b0 d0 = none by
          simp [classifyIndexesGo, hperm, NextPermission]] at hcl
        exact absurd hcl (by simp)
      | DELETE_ONLY =>
        have hany : a0.any (fun kv => kv.1 == ix.table_id) = false := by
          rw [List.any_eq_false]
          intro x hx
          simp [hdisj x hx ix (List.mem_cons_self ..)]
        rw [show classifyIndexesGo (ix :: rest) a0 b0 d0 =
            classifyIndexesGo rest
              (a0 ++ [(ix.table_id, .WRITE_AND_DELETE)]) b0 d0 by
          simp [classifyIndexesGo, hperm, NextPermission, hany]] at hcl
        obtain ⟨ha, hb, hd⟩ := ih (a0 ++ [(ix.table_id, .WRITE_AND_DELETE)])
          b0 d0 a b d hcl
          (by
            intro x hx jx hjx
            rcases List.mem_append.mp hx with hx0 | hx1
            · exact hdisj1 x hx0 jx hjx
            · simp only [List.mem_singleton] at hx1
              subst hx1
              intro hc
              have hc2 : ix.table_id = jx.table_id := hc
              exact hnotin (by rw [hc2]; exact List.mem_map_of_mem _ hjx))
          hnd1
        refine ⟨?_, ?_, ?_⟩ <;>
          simp [ha, hb, hd, List.filterMap_cons, List.filter_cons,
            specAdvanceEntry, hperm, NextPermission]
      | WRITE_AND_DELETE =>
        have hany : a0.any (fun kv => kv.1 == ix.table_id) = false := by
          rw [List.any_eq_false]
          intro x hx
          simp [hdisj x hx ix (List.mem_cons_self ..)]
        rw [show classifyIndexesGo (ix :: rest) a0 b0 d0 =
            classifyIndexesGo rest
              (a0 ++ [(ix.table_id, .DO_BACKFILL)]) b0 d0 by
          simp [classifyIndexesGo, hperm, NextPermission, hany]] at hcl
        obtain ⟨ha, hb, hd⟩ := ih (a0 ++ [(ix.table_id, .DO_BACKFILL)])
          b0 d0 a b d hcl
          (by
            intro x hx jx hjx
            rcases List.mem_append.mp hx with hx0 | hx1
            · exact hdisj1 x hx0 jx hjx
            · simp only [List.mem_singleton] at hx1
              subst hx1
              intro hc
              have hc2 : ix.table_id = jx.table_id := hc
              exact hnotin (by rw [hc2]; exact List.mem_map_of_mem _ hjx))
          hnd1
        refine ⟨?_, ?_, ?_⟩ <;>
          simp [ha, hb, hd, List.filterMap_cons, List.filter_cons,
            specAdvanceEntry, hperm, NextPermission]
      | WRITE_AND_DELETE_WHILE_REMOVING =>
        have hany : a0.any (fun kv => kv.1 == ix.table_id) = false := by
          rw [List.any_eq_false]
          intro x hx
          simp [hdisj x hx ix (List.mem_cons_self ..)]
        rw [show classifyIndexesGo (ix :: rest) a0 b0 d0 =
            classifyIndexesGo rest
              (a0 ++ [(ix.table_id, .DELETE_ONLY_WHILE_REMOVING)]) b0 d0 by
          simp [classifyIndexesGo, hperm, NextPermission, hany]] at hcl
        obtain ⟨ha, hb, hd⟩ := ih
          (a0 ++ [(ix.table_id, .DELETE_ONLY_WHILE_REMOVING)]) b0 d0 a b d hcl
          (by
            intro x hx jx hjx
            rcases List.mem_append.mp hx with hx0 | hx1
            · exact hdisj1 x hx0 jx hjx
            · simp only [List.mem_singleton] at hx1
              subst hx1
              intro hc
              have hc2 : ix.table_id = jx.table_id := hc
              exact hnotin (by rw [hc2]; exact List.mem_map_of_mem _ hjx))
          hnd1
        refine ⟨?_, ?_, ?_⟩ <;>
          simp [ha, hb, hd, List.filterMap_cons, List.filter_cons,
            specAdvanceEntry, hperm, NextPermission]
      | DELETE_ONLY_WHILE_REMOVING =>
        have hany : a0.any (fun kv => kv.1 == ix.table_id) = false := by
          rw [List.any_eq_false]
          intro x hx
          simp [hdisj x hx ix (List.mem_cons_self ..)]
        rw [show classifyIndexesGo (ix :: rest) a0 b0 d0 =
            classifyIndexesGo rest
              (a0 ++ [(ix.table_id, .INDEX_UNUSED)]) b0 d0 by
          simp [classifyIndexesGo, hperm, NextPermission, hany]] at hcl
        obtain ⟨ha, hb, hd⟩ := ih (a0 ++ [(ix.table_id, .INDEX_UNUSED)])
          b0 d0 a b d hcl
          (by
            intro x hx jx hjx
            rcases List.mem_append.mp hx with hx0 | hx1
            · exact hdisj1 x hx0 jx hjx
            · simp only [List.mem_singleton] at hx1
              subst hx1
              intro hc
              have hc2 : ix.table_id = jx.table_id := hc
              exact hnotin (by rw [hc2]; exact List.mem_map_of_mem _ hjx))
          hnd1
        refine ⟨?_, ?_, ?_⟩ <;>
          simp [ha, hb, hd, List.filterMap_cons, List.filter_cons,
            specAdvanceEntry, hperm, NextPermission]

lemma specAdvanceEntry_eq_some (ix : IndexInfoPB) (tid : Nat)
    (np : IndexPermissions) :
    specAdvanceEntry ix = some (tid, np) ↔
      ix.table_id = tid ∧
      ∃ p, ix.index_permissions = some p ∧ p ≠ .DO_BACKFILL ∧
        p ≠ .READ_WRITE_AND_DELETE ∧ p ≠ .INDEX_UNUSED ∧ p ≠ .NOT_USED ∧
        NextPermission p = some np := by
  cases hperm : ix.index_permissions with
  | none => simp [specAdvanceEntry, hperm]
  | some p =>
    cases p <;>
      simp [specAdvanceEntry, hperm, NextPermission, and_comm, eq_comm]

lemma launchNext_action (w : World) (persist_ok : Bool)
    (a : List (Nat × IndexPermissions)) (b d : List IndexInfoPB)
    (hcl : classifyIndexes w.pb.indexes = some (a, b, d)) :
    (launchNextTableInfoVersionIfNecessary w w.pb.version persist_ok).2.2 =
      (match a with
       | _ :: _ => .advance a
       | [] =>
         match d with
         | dix :: _ => .deleteThenClear dix.table_id
         | [] =>
           match b with
           | bix :: _ => .backfill bix
           | [] => .quiesce) := by
  rcases a with _ | ⟨ax, ar⟩ <;> rcases d with _ | ⟨dx, dr⟩ <;>
    rcases b with _ | ⟨bx, br⟩ <;>
    simp [launchNextTableInfoVersionIfNecessary, hcl]

/-- C4 counterexample: on a table whose single attached index is in
INDEX_UNUSED (and whose version matches), the delete branch runs and it
does invoke ClearAlteringState even though the toDelete bucket is
non-empty, contradicting the claim that ClearAlteringState is invoked only
when all three buckets are empty. -/
theorem claim_C4_counterexample :
    classifyIndexes
        [({ table_id := 7, index_permissions := some .INDEX_UNUSED } : IndexInfoPB)] =
      some ([], [],
        [{ table_id := 7, index_permissions := some .INDEX_UNUSED }]) ∧
    (launchNextTableInfoVersionIfNecessary
      { pb := { examplePB with
          indexes := [{ table_id := 7, index_permissions := some .INDEX_UNUSED }] }
        disk := { examplePB with
          indexes := [{ table_id := 7, index_permissions := some .INDEX_UNUSED }] }
        is_backfilling := false
        tablets := []
        job_state := .kRunning
        jobs_launched := 0
        delete_index_info_calls := 0 } 9 true).2.2 = .deleteThenClear 7 ∧
    actionInvokesClearAlteringState
      (launchNextTableInfoVersionIfNecessary
        { pb := { examplePB with
            indexes := [{ table_id := 7, index_permissions := some .INDEX_UNUSED }] }
          disk := { examplePB with
            indexes := [{ table_id := 7, index_permissions := some .INDEX_UNUSED }] }
          is_backfilling := false
          tablets := []
          job_state := .kRunning
          jobs_launched := 0
          delete_index_info_calls := 0 } 9 true).2.2 = true ∧
    ([({ table_id := 7, index_permissions := some .INDEX_UNUSED } : IndexInfoPB)] :
      List IndexInfoPB) ≠ [] := by
  refine ⟨rfl, rfl, rfl, by simp⟩

/-- C4 amended: with the version matching, each attached index carrying a
permission lands in toBackfill iff its permission is DO_BACKFILL, in
toDelete iff INDEX_UNUSED, and in toAdvance (mapped to `next()` of its old
permission) iff its permission is one of the four non-terminal states other
than DO_BACKFILL (exactly those on which `NextPermission` is defined); the
branch priority is advance over delete over backfill over quiesce; and
ClearAlteringState is invoked exactly when toAdvance is empty and either
toDelete is non-empty (delete branch: DeleteIndexInfo then
ClearAlteringState) or all buckets are empty (quiesce). -/
theorem claim_C4_amended (w : World) (persist_ok : Bool)
    (a : List (Nat × IndexPermissions)) (b d : List IndexInfoPB)
    (hcl : classifyIndexes w.pb.indexes = some (a, b, d))
    (hnd : (w.pb.indexes.map IndexInfoPB.table_id).Nodup) :
    b = w.pb.indexes.filter
      (fun ix => ix.index_permissions == some .DO_BACKFILL) ∧
    d = w.pb.indexes.filter
      (fun ix => ix.index_permissions == some .INDEX_UNUSED) ∧
    a = w.pb.indexes.filterMap specAdvanceEntry ∧
    (∀ tid np, (tid, np) ∈ a ↔
      ∃ ix ∈ w.pb.indexes, ix.table_id = tid ∧
        ∃ p, ix.index_permissions = some p ∧ p ≠ .DO_BACKFILL ∧
          p ≠ .READ_WRITE_AND_DELETE ∧ p ≠ .INDEX_UNUSED ∧ p ≠ .NOT_USED ∧
          NextPermission p = some np) ∧
    (∀ p : IndexPermissions, (NextPermission p).isSome = true ↔
      (p = .DELETE_ONLY ∨ p = .WRITE_AND_DELETE ∨
       p = .WRITE_AND_DELETE_WHILE_REMOVING ∨
       p = .DELETE_ONLY_WHILE_REMOVING)) ∧
    (a ≠ [] →
      (launchNextTableInfoVersionIfNecessary w w.pb.version persist_ok).2.2 =
        .advance a) ∧
    (∀ dix dr, a = [] → d = dix :: dr →
      (launchNextTableInfoVersionIfNecessary w w.pb.version persist_ok).2.2 =
        .deleteThenClear dix.table_id) ∧
    (∀ bix br, a = [] → d = [] → b = bix :: br →
      (launchNextTableInfoVersionIfNecessary w w.pb.version persist_ok).2.2 =
        .backfill bix) ∧
    (a = [] → d = [] → b = [] →
      (launchNextTableInfoVersionIfNecessary w w.pb.version persist_ok).2.2 =
        .quiesce) ∧
    (actionInvokesClearAlteringState
        (launchNextTableInfoVersionIfNecessary w w.pb.version persist_ok).2.2 =
          true ↔
      (a = [] ∧ (d ≠ [] ∨ b = []))) := by
  obtain ⟨ha, hb, hd⟩ := classifyIndexesGo_spec w.pb.indexes [] [] [] a b d hcl
    (by intro x hx; exact absurd hx (List.not_mem_nil x)) hnd
  have hact := launchNext_action w persist_ok a b d hcl
  refine ⟨by simpa using hb, by simpa using hd, by simpa using ha,
    ?_, ?_, ?_, ?_, ?_, ?_, ?_⟩
  · intro tid np
    rw [show a = w.pb.indexes.filterMap specAdvanceEntry by simpa using ha,
      List.mem_filterMap]
    constructor
    · rintro ⟨ix, hix, hsome⟩
      exact ⟨ix, hix, (specAdvanceEntry_eq_some ix tid np).mp hsome⟩
    · rintro ⟨ix, hix, hrest⟩
      exact ⟨ix, hix, (specAdvanceEntry_eq_some ix tid np).mpr hrest⟩
  · intro p
    cases p <;> simp [NextPermission]
  · intro hne
    rcases a with _ | ⟨ax, ar⟩
    · exact absurd rfl hne
    · rw [hact]
  · intro dix dr h1 h2
    subst h1; subst h2
    rw [hact]
  · intro bix br h1 h2 h3
    subst h1; subst h2; subst h3
    rw [hact]
  · intro h1 h2 h3
    subst h1; subst h2; subst h3
    rw [hact]
  · rw [hact]
    rcases a with _ | ⟨ax, ar⟩ <;> rcases d with _ | ⟨dx, dr⟩ <;>
      rcases b with _ | ⟨bx, br⟩ <;>
      simp [actionInvokesClearAlteringState]

/-- Witness for C4 amended: a table carrying one index in each of
WRITE_AND_DELETE, DO_BACKFILL and INDEX_UNUSED; the advance branch wins. -/
theorem claim_C4_witness :
    classifyIndexes
        [({ table_id := 1, index_permissions := some .WRITE_AND_DELETE } : IndexInfoPB),
         { table_id := 2, index_permissions := some .DO_BACKFILL },
         { table_id := 3, index_permissions := some .INDEX_UNUSED }] =
      some ([(1, .DO_BACKFILL)],
        [{ table_id := 2, index_permissions := some .DO_BACKFILL }],
        [{ table_id := 3, index_permissions := some .INDEX_UNUSED }]) ∧
    (launchNextTableInfoVersionIfNecessary
      { pb := { examplePB with
          indexes :=
            [{ table_id := 1, index_permissions := some .WRITE_AND_DELETE },
             { table_id := 2, index_permissions := some .DO_BACKFILL },
             { table_id := 3, index_permissions := some .INDEX_UNUSED }] }
        disk := examplePB
        is_backfilling := false
        tablets := []
        job_state := .kRunning
        jobs_launched := 0
        delete_index_info_calls := 0 } 9 true).2.2 =
      .advance [(1, .DO_BACKFILL)] := by
  refine ⟨rfl, ?_⟩
  have h := claim_C4_amended
    { pb := { examplePB with
        indexes :=
          [{ table_id := 1, index_permissions := some .WRITE_AND_DELETE },
           { table_id := 2, index_permissions := some .DO_BACKFILL },
           { table_id := 3, index_permissions := some .INDEX_UNUSED }] }
      disk := examplePB
      is_backfilling := false
      tablets := []
      job_state := .kRunning
      jobs_launched := 0
      delete_index_info_calls := 0 } true
    [(1, .DO_BACKFILL)]
    [{ table_id := 2, index_permissions := some .DO_BACKFILL }]
    [{ table_id := 3, index_permissions := some .INDEX_UNUSED }]
    rfl (by decide)
  exact h.2.2.2.2.2.1 (by simp)

/-! ## The success path of a finished backfill (claim C1) -/

/-- Observable steps of `BackfillTable::AlterTableStateToSuccess` and
`BackfillTable::ClearCheckpointStateInTablets`, in execution order. -/
inductive SEvent where
  | updatedPermission (index_table_id : Nat) (perm : IndexPermissions)
  | sentAlterTableRequest
  | allowedCompactionsToGCDeleteMarkers
  | setIsBackfilling (b : Bool)
  | setJobState (s : MonitoredTaskState)
  | clearedBackfilledUntil
  | clearedBackfillingTimestamp
deriving DecidableEq, Repr

/-- Embeds `BackfillTable::ClearCheckpointStateInTablets`: start a mutation
on every tablet erasing `backfilled_until[index]` from the dirty copy,
persist all tablets in one batch (on failure the mutations stay
uncommitted and the committed maps are unchanged), then commit each; then
under the base table's write lock clear `backfilling_timestamp`, persist
and commit. -/
def clearCheckpointStateInTablets (idx_id : Nat) (w : World)
    (persist_tablets_ok persist_table_ok : Bool) :
    Status × World × List SEvent :=
  let dirties := w.tablets.map
    (fun t => mapErase t.committed_backfilled_until idx_id)
  if persist_tablets_ok = false then (.ioError, w, [])
  else
    let tablets1 := dirties.map (fun m => TabletCheckpoint.mk m m)
    let w1 := { w with tablets := tablets1 }
    let pb1 := { w1.pb with
      schema := { w1.pb.schema with
        table_properties := { w1.pb.schema.table_properties with
          backfilling_timestamp := none } } }
    if persist_table_ok = false then (.ioError, w1, [.clearedBackfilledUntil])
    else
      (.ok, { w1 with pb := pb1, disk := pb1 },
        [.clearedBackfilledUntil, .clearedBackfillingTimestamp])

/-- Embeds `BackfillTable::AlterTableStateToSuccess`: update the index
permission to READ_WRITE_AND_DELETE (no version guard), broadcast the
alter-table request, allow delete-marker GC on the index table (that table
is outside this base-table world, so only the step and its possible persist
failure are recorded), clear the in-memory `is_backfilling` flag, mark the
job COMPLETE, and only then clear the checkpoint state in the tablets. -/
def alterTableStateToSuccess (index_table_id : Nat) (w : World)
    (persist_perm_ok persist_gc_ok persist_tablets_ok persist_table_ok : Bool) :
    Status × World × List SEvent :=
  let r1 := updateIndexPermission [(index_table_id, .READ_WRITE_AND_DELETE)]
    none w persist_perm_ok
  if r1.1 ≠ .ok then (r1.1, r1.2, [])
  else
    let w1 := r1.2
    let ev1 : List SEvent :=
      [.updatedPermission index_table_id .READ_WRITE_AND_DELETE,
       .sentAlterTableRequest]
    if persist_gc_ok = false then (.ioError, w1, ev1)
    else
      let ev2 := ev1 ++ [.allowedCompactionsToGCDeleteMarkers]
      let w2 := { w1 with is_backfilling := false, job_state := .kComplete }
      let ev3 := ev2 ++ [.setIsBackfilling false, .setJobState .kComplete]
      let r2 := clearCheckpointStateInTablets index_table_id w2
        persist_tablets_ok persist_table_ok
      (r2.1, r2.2.1, ev3 ++ r2.2.2)

/-- The ordering the claim asserts of a trace: if the job is marked
COMPLETE, then both checkpoint-clearing steps already appear strictly
before that mark. -/
def claimC1orderingOk (tr : List SEvent) : Bool :=
  !(tr.contains (.setJobState .kComplete)) ||
    ((tr.takeWhile (fun e => e != .setJobState .kComplete)).contains
        .clearedBackfilledUntil &&
     (tr.takeWhile (fun e => e != .setJobState .kComplete)).contains
        .clearedBackfillingTimestamp)

/-- A concrete base table mid-backfill: index 5 in DO_BACKFILL, persisted
`backfilling_timestamp`, one tablet with a `backfilled_until` checkpoint. -/
def c1ExamplePB : SysTablesEntryPB :=
  { version := 9
    schema := { cols := 2
                table_properties := { backfilling_timestamp := some 120
                                      is_backfilling := false } }
    indexes := [{ table_id := 5, index_permissions := some .DO_BACKFILL }]
    index_info := none
    fully_applied_schema := none
    fully_applied_schema_version := none
    fully_applied_indexes := none
    fully_applied_index_info := none
    state := .ALTERING }

def c1ExampleWorld : World :=
  { pb := c1ExamplePB
    disk := c1ExamplePB
    is_backfilling := true
    tablets := [{ committed_backfilled_until := [(5, [107])]
                  disk_backfilled_until := [(5, [107])] }]
    job_state := .kRunning
    jobs_launched := 1
    delete_index_info_calls := 0 }

/-- C1 counterexample: on a fully successful run of the success path over a
concrete mid-backfill world, the job is marked COMPLETE, yet the trace does
not place the checkpoint clears before the COMPLETE mark — the code marks
the job COMPLETE first and clears `backfilled_until` and
`backfilling_timestamp` afterwards, so marking COMPLETE is not the last
step. -/
theorem claim_C1_counterexample :
    claimC1orderingOk
      (alterTableStateToSuccess 5 c1ExampleWorld true true true true).2.2 =
      false ∧
    (alterTableStateToSuccess 5 c1ExampleWorld true true true true).1 =
      Status.ok ∧
    (alterTableStateToSuccess 5 c1ExampleWorld
      true true true true).2.1.job_state = .kComplete := by
  refine ⟨by decide, rfl, rfl⟩

/-- C1 amended: on the success path with every persist succeeding, the run
returns OK and afterwards `backfilling_timestamp` is erased from the base
table (in memory and on disk) and `backfilled_until[index]` is erased from
every tablet (committed and persisted); the job ends COMPLETE and
`is_backfilling` is cleared; but the COMPLETE mark is written immediately
before the checkpoint-clearing steps, not after them: the full trace is
permission update, alter broadcast, GC enablement, is_backfilling clear,
COMPLETE mark, then the two checkpoint clears. -/
theorem claim_C1_amended (w : World) (idx : Nat) :
    (alterTableStateToSuccess idx w true true true true).1 = Status.ok ∧
    (alterTableStateToSuccess idx w
      true true true true).2.1.pb.schema.table_properties.backfilling_timestamp =
      none ∧
    (alterTableStateToSuccess idx w true true true true).2.1.disk =
      (alterTableStateToSuccess idx w true true true true).2.1.pb ∧
    (∀ t ∈ (alterTableStateToSuccess idx w true true true true).2.1.tablets,
      mapFind t.committed_backfilled_until idx = none ∧
      mapFind t.disk_backfilled_until idx = none) ∧
    (alterTableStateToSuccess idx w true true true true).2.1.job_state =
      .kComplete ∧
    (alterTableStateToSuccess idx w true true true true).2.1.is_backfilling =
      false ∧
    (alterTableStateToSuccess idx w true true true true).2.2 =
      [.updatedPermission idx .READ_WRITE_AND_DELETE,
       .sentAlterTableRequest,
       .allowedCompactionsToGCDeleteMarkers,
       .setIsBackfilling false,
       .setJobState .kComplete,
       .clearedBackfilledUntil,
       .clearedBackfillingTimestamp] := by
  refine ⟨rfl, rfl, rfl, ?_, rfl, rfl, rfl⟩
  intro t ht
  have htab : (alterTableStateToSuccess idx w true true true true).2.1.tablets =
      (w.tablets.map
        (fun t0 => mapErase t0.committed_backfilled_until idx)).map
        (fun m => TabletCheckpoint.mk m m) := rfl
  rw [htab, List.mem_map] at ht
  obtain ⟨m, hm, rfl⟩ := ht
  rw [List.mem_map] at hm
  obtain ⟨t0, _, rfl⟩ := hm
  exact ⟨mapFind_mapErase .., mapFind_mapErase ..⟩

/-! ## BackfillTablet::Done under a failed checkpoint persist (claim C10) -/

structure BackfillTabletState where
  next_row_to_backfill : List Nat
  done : Bool
deriving DecidableEq, Repr

inductive TabletBackfillEvent where
  | reportToTableFailure
  | reportToTableSuccess
  | launchChunk (start_key : List Nat)
deriving DecidableEq, Repr

/-- Embeds `BackfillTablet::Done` followed by `LaunchNextChunkOrDone`.  On a
failed chunk, report the failure to the BackfillTable and stop.  On
success: advance the in-memory cursor; start a mutation inserting
`backfilled_until[index] := next_row_key` on the dirty copy for every index
being built (protobuf map insert, no overwrite); persist — a failure is
only logged (WARN_NOT_OK); commit the mutation regardless; mark the tablet
done when the returned key is empty; then either report success (done) or
launch the next chunk from the cursor. -/
def backfillTabletDone (bt : BackfillTabletState) (tab : TabletCheckpoint)
    (index_ids : List Nat) (status_ok : Bool) (next_row_key : List Nat)
    (persist_ok : Bool) :
    BackfillTabletState × TabletCheckpoint × List TabletBackfillEvent :=
  if status_ok = false then (bt, tab, [.reportToTableFailure])
  else
    let bt1 : BackfillTabletState :=
      { bt with next_row_to_backfill := next_row_key }
    let dirty := index_ids.foldl
      (fun m idx => mapInsert m idx next_row_key) tab.committed_backfilled_until
    let tab1 : TabletCheckpoint :=
      { committed_backfilled_until := dirty
        disk_backfilled_until :=
          if persist_ok then dirty else tab.disk_backfilled_until }
    let bt2 : BackfillTabletState :=
      if next_row_key = [] then { bt1 with done := true } else bt1
    let events : List TabletBackfillEvent :=
      if bt2.done then [.reportToTableSuccess]
      else [.launchChunk bt2.next_row_to_backfill]
    (bt2, tab1, events)

/-- C10: when the chunk succeeded but the sys-catalog persist of
`backfilled_until[index]` fails, `BackfillTablet::Done` behaves exactly as
on a successful persist except that the persisted map is left behind: the
in-memory mutation is still committed, the cursor still advances, the
tablet is still marked done exactly when the returned key is empty, and the
next chunk is still launched (or completion reported) — the operation is
not abandoned, so the in-memory cursor runs ahead of the persisted
checkpoint. -/
theorem claim_C10 (bt : BackfillTabletState) (tab : TabletCheckpoint)
    (index_ids : List Nat) (key : List Nat) :
    (backfillTabletDone bt tab index_ids true key false).1 =
      (backfillTabletDone bt tab index_ids true key true).1 ∧
    (backfillTabletDone bt tab index_ids true key false).2.2 =
      (backfillTabletDone bt tab index_ids true key true).2.2 ∧
    (backfillTabletDone bt tab index_ids true key
      false).2.1.committed_backfilled_until =
      (backfillTabletDone bt tab index_ids true key
        true).2.1.committed_backfilled_until ∧
    (backfillTabletDone bt tab index_ids true key
      false).2.1.disk_backfilled_until = tab.disk_backfilled_until ∧
    (backfillTabletDone bt tab index_ids true key false).1.done =
      (bt.done || decide (key = [])) ∧
    (backfillTabletDone bt tab index_ids true key
      false).1.next_row_to_backfill = key ∧
    (backfillTabletDone bt tab index_ids true key false).2.2 =
      (if bt.done || decide (key = []) then
        [TabletBackfillEvent.reportToTableSuccess]
      else [TabletBackfillEvent.launchChunk key]) := by
  by_cases hk : key = []
  · subst hk
    simp [backfillTabletDone]
  · simp [backfillTabletDone, hk]

/-! ## Concrete witnesses for the remaining claims -/

/-- Witness for C1 amended at the concrete mid-backfill world. -/
theorem claim_C1_witness :
    (alterTableStateToSuccess 5 c1ExampleWorld true true true true).1 =
      Status.ok ∧
    (alterTableStateToSuccess 5 c1ExampleWorld
      true true true true).2.1.pb.schema.table_properties.backfilling_timestamp =
      none ∧
    (alterTableStateToSuccess 5 c1ExampleWorld
      true true true true).2.1.job_state = .kComplete := by
  have h := claim_C1_amended c1ExampleWorld 5
  exact ⟨h.1, h.2.1, h.2.2.2.2.1⟩

/-- Witness for C3: a persisted timestamp of 120 is adopted verbatim and
Launch creates only backfill tasks. -/
theorem claim_C3_witness :
    mkBackfillTable (some 120) (fun _ => true) =
      { read_time_for_backfill := some 120
        timestamp_chosen := true
        done := false } ∧
    backfillTableLaunch
      { read_time_for_backfill := some 120
        timestamp_chosen := true
        done := false } [1, 2, 3] =
      [1, 2, 3].map LaunchedTask.backfillTablet := by
  have h := claim_C3 120 (fun _ => true) [1, 2, 3]
  exact ⟨by simpa using h.1, h.2.2.1⟩

/-- Witness for C5: with three tablets, one success then a failure then a
late success, the job aborts once and never persists or launches. -/
theorem claim_C5_witness :
    (runSafeTime (initSafeTimeState 3)
      ([100].map some ++ none :: [some 130])).abort_count = 1 ∧
    (runSafeTime (initSafeTimeState 3)
      ([100].map some ++ none :: [some 130])).aborted_to =
      some IndexPermissions.WRITE_AND_DELETE_WHILE_REMOVING ∧
    (runSafeTime (initSafeTimeState 3)
      ([100].map some ++ none :: [some 130])).persist_count = 0 ∧
    (runSafeTime (initSafeTimeState 3)
      ([100].map some ++ none :: [some 130])).launch_backfill_count = 0 := by
  have h := claim_C5 [100] [some 130]
  exact ⟨h.2.2.2.1, h.2.2.2.2.1, h.2.2.2.2.2.1, h.2.2.2.2.2.2.1⟩

/-- Witness for C8: a schema-mismatch response fails the task at once; an
unclassified error leaves it retryable. -/
theorem claim_C8_witness :
    getSafeTimeHandleResponse (some .MISMATCHED_SCHEMA) = .kFailed ∧
    backfillChunkHandleResponse (some (.otherError 3)) = .kRunning := by
  have h1 := claim_C8 (some .MISMATCHED_SCHEMA)
  have h2 := claim_C8 (some (.otherError 3))
  exact ⟨h1.1.mpr ⟨.MISMATCHED_SCHEMA, rfl, rfl⟩, (h2.2.2.1 3).2⟩

/-- Witness for C9 amended at concrete block sizes. -/
theorem claim_C9_witness :
    getMiddleKeyIndex 0 = .error .Incomplete ∧
    getMiddleKeyIndex 15 = .ok 8 ∧ getMiddleKeyIndex 16 = .ok 9 :=
  ⟨claim_C9_amended.1, claim_C9_amended.2.2.2.2.2.1,
    claim_C9_amended.2.2.2.2.2.2⟩

/-- Witness for C10: a mid-scan chunk whose checkpoint persist fails still
commits the cursor in memory and launches the next chunk. -/
theorem claim_C10_witness :
    (backfillTabletDone { next_row_to_backfill := [], done := false }
      { committed_backfilled_until := [], disk_backfilled_until := [] }
      [5] true [2, 3] false).2.2 =
      [TabletBackfillEvent.launchChunk [2, 3]] ∧
    (backfillTabletDone { next_row_to_backfill := [], done := false }
      { committed_backfilled_until := [], disk_backfilled_until := [] }
      [5] true [2, 3] false).2.1.disk_backfilled_until = [] ∧
    (backfillTabletDone { next_row_to_backfill := [], done := false }
      { committed_backfilled_until := [], disk_backfilled_until := [] }
      [5] true [2, 3] false).2.1.committed_backfilled_until =
      (backfillTabletDone { next_row_to_backfill := [], done := false }
        { committed_backfilled_until := [], disk_backfilled_until := [] }
        [5] true [2, 3] true).2.1.committed_backfilled_until := by
  have h := claim_C10 { next_row_to_backfill := [], done := false }
    { committed_backfilled_until := [], disk_backfilled_until := [] }
    [5] [2, 3]
  exact ⟨by rw [h.2.2.2.2.2.2]; decide, h.2.2.2.1, h.2.2.1⟩

end YB
